import Mathlib

/-!
Verification development for the travel-matrix construction and gap-filling
engine of the ca-cardiology-optimizer repository.

The embedding translates the Python modules
`src/old_progress/src/data/travel_matrix/travel_matrix_builder.py`,
`src/old_progress/src/data/travel_matrix/interpolation_methods.py` and
`src/old_progress/generate_statewide_travel_matrix.py` into Lean.

Modelling conventions:
* ZIP codes (Python `str`) are `List Char`.
* Pandas float columns that can hold `NaN` are `Option` values (`none` = NaN);
  NaN propagation through `np.average` is modelled by `Option`.
* Purely rational float arithmetic (tier formulas, fallback constants,
  coverage fractions) is carried out in `ℚ`; computations that involve
  trigonometry or square roots (haversine, feature scaling, Euclidean
  distances) are carried out in `ℝ`.
* `np.random.normal` perturbations are universally quantified parameters.
-/

namespace TravelMatrix

/-! ### Generic list helpers (pandas primitives) -/

/-- Embeds `pandas.DataFrame.drop_duplicates` / `Series.unique`: keep the first
occurrence of each element, preserving order.  `seen` accumulates the
elements already emitted. -/
def ddAux {α : Type} [DecidableEq α] : List α → List α → List α
  | [], _ => []
  | x :: xs, seen => if x ∈ seen then ddAux xs seen else x :: ddAux xs (x :: seen)

/-- Embeds `drop_duplicates` with `keep = first` (the pandas default). -/
def dropDuplicates {α : Type} [DecidableEq α] (l : List α) : List α :=
  ddAux l []





/-- Row-indexed map, mirroring a pandas loop over `df.index` that rewrites
each row as a function of its position. -/
def mapIdxFrom {α : Type} (f : ℕ → α → α) : ℕ → List α → List α
  | _, [] => []
  | i, x :: xs => f i x :: mapIdxFrom f (i + 1) xs



/-- Positions of the rows satisfying `p` (pandas `df.index[mask]` on a
default `RangeIndex`). -/
def idxWhere {α : Type} (l : List α) (d : α) (p : α → Bool) : List ℕ :=
  (List.range l.length).filter (fun i => p (l.getD i d))


/-- Mean of a list of reals (`pandas.Series.mean` on a non-empty series). -/
noncomputable def listMean (l : List ℝ) : ℝ := l.sum / l.length

/-- Embeds `np.average(values, weights)` on values that may contain NaN: a NaN input
propagates to the output (modelled as `none`). -/
noncomputable def npAverage (vals : List (Option ℝ)) (ws : List ℝ) : Option ℝ :=
  if vals.any Option.isNone then none
  else some ((((vals.map (fun v => v.getD 0)).zip ws).map (fun p => p.1 * p.2)).sum / ws.sum)

/-- Numeric value of a digit string (`str.astype(int)` on an all-digit
string; the travel-matrix ZIP columns hold zero-padded digit strings). -/
def digitsVal (cs : List Char) : ℕ :=
  cs.foldl (fun n c => 10 * n + (c.toNat - 48)) 0

/-- Embeds `int(s)` for the two-character region prefix: `none` models the
`ValueError` raised on a non-digit or empty string. -/
def parseDigits (cs : List Char) : Option ℕ :=
  if cs.isEmpty then none
  else if cs.all Char.isDigit then some (digitsVal cs) else none

/-! ### Builder data model (`travel_matrix_builder.py`) -/

/-- One row of `ca_providers_filtered.csv` after `load_provider_data`
(column `provider_npi` renamed to `NPI`, ZIP zero-padded). -/
structure ProviderRow where
  npi : ℕ
  zip_code : List Char
  deriving DecidableEq, Repr

/-- One row of `ca_demand_filtered.csv` after `load_demand_data`. -/
structure DemandRow where
  zip_code : List Char
  ensemble_demand_score : ℚ
  deriving DecidableEq, Repr

/-- One row of the builder target matrix: columns
`zip_code` (demand ZIP), `provider_npi`, `drive_minutes` (NaN = `none`). -/
structure TargetRow where
  zip_code : List Char
  provider_npi : ℕ
  drive_minutes : Option ℚ
  deriving DecidableEq, Repr

/-- Embeds `TravelMatrixBuilder._create_target_matrix`: dedupe the
`(NPI, zip_5digit)` pairs, take the unique demand ZIPs, and emit one row per
(provider-info row, demand ZIP) combination with `drive_minutes = NaN`.
The outer loop runs over `provider_info.iterrows()`, the inner loop over
`demand_zips`. -/
def create_target_matrix (providers : List ProviderRow) (demand : List DemandRow) :
    List TargetRow :=
  let provider_info := dropDuplicates (providers.map fun p => (p.npi, p.zip_code.take 5))
  let demand_zips := dropDuplicates (demand.map fun d => d.zip_code)
  provider_info.flatMap fun pr =>
    demand_zips.map fun dz => { zip_code := dz, provider_npi := pr.1, drive_minutes := none }

/-! ### Speed-tier travel time (`_estimate_travel_time`, lines 355-376) -/

/-- Distance-banded travel-time formula of `_estimate_travel_time`:
urban (≤ 50 mi, × 1.71), regional (≤ 150 mi, × 1.09), interstate
(≤ 300 mi, × 0.92), long-distance (× 1.0 then × 1.1 rest-stop overhead). -/
def tier_time (distance : ℚ) : ℚ :=
  if distance ≤ 50 then distance * 1.71
  else if distance ≤ 150 then distance * 1.09
  else if distance ≤ 300 then distance * 0.92
  else distance * 1.0 * 1.1

/-- Tail of `_estimate_travel_time`: add the `np.random.normal(0, 5)`
perturbation `eps`, then clamp with `max(5, ·)` and `min(600, ·)`. -/
def estimate_minutes (distance eps : ℚ) : ℚ :=
  min 600 (max 5 (tier_time distance + eps))

/-! ### Fallback estimation (`_fallback_travel_time_estimation`, lines 378-422) -/

/-- The tuple of recognized California two-digit ZIP starts passed to
`str.startswith`. -/
def caZipStarts : List (List Char) :=
  [['9', '0'], ['9', '1'], ['9', '2'], ['9', '3'], ['9', '4'], ['9', '5'], ['9', '6']]

/-- Embeds the `str(zip).startswith(...)` test over `caZipStarts`. -/
def isCaZip (z : List Char) : Bool :=
  caZipStarts.any fun p => p.isPrefixOf z

/-- Embeds `TravelMatrixBuilder._fallback_travel_time_estimation`.  `eps` is the
`np.random.normal(0, 10)` variability added on the same-region path. -/
def fallback_travel_time_estimation (origin_zip dest_zip : List Char) (eps : ℚ) : ℚ :=
  let origin_is_ca := isCaZip origin_zip
  let dest_is_ca := isCaZip dest_zip
  if ¬origin_is_ca ∧ ¬dest_is_ca then 180.0
  else if origin_is_ca ≠ dest_is_ca then 120.0
  else
    match parseDigits (origin_zip.take 2), parseDigits (dest_zip.take 2) with
    | some origin_region, some dest_region =>
        if 90 ≤ origin_region ∧ origin_region ≤ 96 ∧
            90 ≤ dest_region ∧ dest_region ≤ 96 then
          let distance : ℚ := |(origin_region : ℚ) - (dest_region : ℚ)| * 10
          let travel_time := distance * 1.5 + eps
          min 120 (max 10 travel_time)
        else 150.0
    | _, _ => 45.0

/-! ### Distance functions -/

/-- Embeds `np.radians` / `math.radians`: degrees to radians. -/
noncomputable def radians (x : ℝ) : ℝ := x * Real.pi / 180

/-- Embeds `TravelMatrixBuilder._calculate_distance` (lines 424-450): haversine
central angle via `2 * arcsin(sqrt a)`, Earth radius `r = 3959` miles.
No road-network inflation factor is applied. -/
noncomputable def calculate_distance (coords1 coords2 : ℝ × ℝ) : ℝ :=
  let lat1 := radians coords1.1
  let lon1 := radians coords1.2
  let lat2 := radians coords2.1
  let lon2 := radians coords2.2
  let dlat := lat2 - lat1
  let dlon := lon2 - lon1
  let a := Real.sin (dlat / 2) ^ 2 +
    Real.cos lat1 * Real.cos lat2 * Real.sin (dlon / 2) ^ 2
  let c := 2 * Real.arcsin (Real.sqrt a)
  c * 3959

/-- Embeds `math.atan2`, by quadrant (the arguments supplied by the haversine code
are non-negative square roots, which land in the first three branches). -/
noncomputable def atan2 (y x : ℝ) : ℝ :=
  if 0 < x then Real.arctan (y / x)
  else if x < 0 ∧ 0 ≤ y then Real.arctan (y / x) + Real.pi
  else if x < 0 ∧ y < 0 then Real.arctan (y / x) - Real.pi
  else if x = 0 ∧ 0 < y then Real.pi / 2
  else if x = 0 ∧ y < 0 then -(Real.pi / 2)
  else 0

/-- Embeds `haversine` from `generate_statewide_travel_matrix.py` (lines 15-21):
`R = 3958.8` miles, `c = 2 * atan2(sqrt a, sqrt (1 - a))`, and the result is
multiplied by the 1.15 road-network fudge factor. -/
noncomputable def haversine (lat1 lon1 lat2 lon2 : ℝ) : ℝ :=
  let R : ℝ := 3958.8
  let dlat := radians (lat2 - lat1)
  let dlon := radians (lon2 - lon1)
  let a := Real.sin (dlat / 2) ^ 2 +
    Real.cos (radians lat1) * Real.cos (radians lat2) * Real.sin (dlon / 2) ^ 2
  let c := 2 * atan2 (Real.sqrt a) (Real.sqrt (1 - a))
  R * c * 1.15

/-- Modelled from the spec (§4.2): "standard great-circle distance using the
haversine formula, Earth radius 3,958.8-3,959 miles" — the un-inflated
great-circle distance, used as the comparison point for the claimed
`× 1.15` road-network inflation factor.  Stated with the numerically
stable `atan2` form of the haversine formula. -/
noncomputable def greatCircleDistance (R lat1 lon1 lat2 lon2 : ℝ) : ℝ :=
  let dlat := radians (lat2 - lat1)
  let dlon := radians (lon2 - lon1)
  let a := Real.sin (dlat / 2) ^ 2 +
    Real.cos (radians lat1) * Real.cos (radians lat2) * Real.sin (dlon / 2) ^ 2
  R * (2 * atan2 (Real.sqrt a) (Real.sqrt (1 - a)))

/-! ### Validation and persistence (`_validate_matrix`, `_save_matrix`,
tail of `build_travel_matrix`) -/

/-- Errors raised by the build. -/
inductive BuildError : Type where
  | coverageError (coverage min_coverage : ℚ)
  deriving DecidableEq, Repr

/-- Coverage of the `drive_minutes` column:
`1 - matrix[drive_minutes].isna().mean()`. -/
def coverage (m : List (Option ℚ)) : ℚ :=
  1 - (m.countP Option.isNone : ℚ) / (m.length : ℚ)

/-- Embeds `TravelMatrixBuilder._validate_matrix` (lines 479-508): raise when
coverage is below `min_coverage`; otherwise correct negative travel times
to the 5-minute floor in place. -/
def validate_matrix (min_coverage : ℚ) (m : List (Option ℚ)) :
    Except BuildError (List (Option ℚ)) :=
  if coverage m < min_coverage then
    .error (.coverageError (coverage m) min_coverage)
  else
    .ok (m.map fun v =>
      match v with
      | some t => if t < 0 then some 5 else some t
      | none => none)

/-- The output files written by `_save_matrix`. -/
def savedFiles : List String :=
  ["travel_matrix.csv", "travel_matrix.parquet", "travel_matrix_summary.json"]

/-- The tail of `build_travel_matrix` (phase 6, lines 212-214): validate the
filled matrix, then save it.  `fs` is the list of files written so far; a
validation error propagates before `_save_matrix` runs, leaving `fs`
untouched. -/
def build_finalize (min_coverage : ℚ) (m : List (Option ℚ)) (fs : List String) :
    Except BuildError (List (Option ℚ)) × List String :=
  match validate_matrix min_coverage m with
  | .error e => (.error e, fs)
  | .ok corrected => (.ok corrected, fs ++ savedFiles)

/-! ### Interpolation engine (`interpolation_methods.py`) -/

/-- One row of a matrix in the engine expected schema: columns
`origin_zip`, `destination_zip`, `travel_time_minutes` (NaN = `none`). -/
structure MatrixRow where
  origin_zip : List Char
  destination_zip : List Char
  travel_time_minutes : Option ℝ

/-- Placeholder row used for positional `getD` access. -/
def defaultRow : MatrixRow :=
  { origin_zip := [], destination_zip := [], travel_time_minutes := none }

/-- The nine raw (un-scaled) features of `_create_zip_features`: digit
groups `[:2]`, `[2:4]`, `[4:]` of both ZIPs plus their absolute
differences. -/
def rowFeatures (r : MatrixRow) : List ℝ :=
  let o1 : ℝ := digitsVal (r.origin_zip.take 2)
  let o2 : ℝ := digitsVal ((r.origin_zip.drop 2).take 2)
  let o3 : ℝ := digitsVal (r.origin_zip.drop 4)
  let d1 : ℝ := digitsVal (r.destination_zip.take 2)
  let d2 : ℝ := digitsVal ((r.destination_zip.drop 2).take 2)
  let d3 : ℝ := digitsVal (r.destination_zip.drop 4)
  [o1, o2, o3, d1, d2, d3, |o1 - d1|, |o2 - d2|, |o3 - d3|]

/-- Column mean over a list of feature rows. -/
noncomputable def colMean (rows : List (List ℝ)) (j : ℕ) : ℝ :=
  listMean (rows.map fun r => r.getD j 0)

/-- Population standard deviation of column `j` (`sklearn` uses `ddof = 0`). -/
noncomputable def colStd (rows : List (List ℝ)) (j : ℕ) : ℝ :=
  Real.sqrt (listMean (rows.map fun r => (r.getD j 0 - colMean rows j) ^ 2))

/-- Embeds `StandardScaler.fit_transform`: per-column `(x - mean) / std`, with a
zero standard deviation replaced by 1 (sklearn `scale_` convention). -/
noncomputable def standardScale (rows : List (List ℝ)) : List (List ℝ) :=
  rows.map fun r =>
    mapIdxFrom (fun j x =>
      (x - colMean rows j) / (if colStd rows j = 0 then 1 else colStd rows j)) 0 r

/-- Embeds `InterpolationMethods._create_zip_features`: raw digit-group features of
every row, normalised by a scaler fitted on the whole matrix. -/
noncomputable def create_zip_features (matrix : List MatrixRow) : List (List ℝ) :=
  standardScale (matrix.map rowFeatures)

/-- Euclidean distance between two feature vectors. -/
noncomputable def euclid (a b : List ℝ) : ℝ :=
  Real.sqrt (((a.zip b).map fun p => (p.1 - p.2) ^ 2).sum)

/-- Positions of the missing (`isna`) rows. -/
def missingIdx (matrix : List MatrixRow) : List ℕ :=
  idxWhere matrix defaultRow fun r => r.travel_time_minutes.isNone

/-- Positions of the known (`notna`) rows. -/
def knownIdx (matrix : List MatrixRow) : List ℕ :=
  idxWhere matrix defaultRow fun r => r.travel_time_minutes.isSome

/-- Embeds `NearestNeighbors.kneighbors`: the `n` positions (within the fitted
known-feature list) closest to the query `q`, in order of distance. -/
noncomputable def kNearestIdx (knownFeats : List (List ℝ)) (q : List ℝ) (n : ℕ) :
    List ℕ :=
  ((List.range knownFeats.length).mergeSort fun i j =>
    decide (euclid (knownFeats.getD i []) q ≤ euclid (knownFeats.getD j []) q)).take n

/-- The fill loop of `nearest_neighbor_interpolation` (lines 82-89).  For
each missing position `mi` (in order), the neighbor values are read with
`result_matrix.loc[known_mask.index[indices[i]]]`: `known_mask.index` is the
full matrix index, so the k-nearest-neighbor positions `nb mi` — positions
within the known subset — are applied to the *current full matrix*, and the
weighted average is written at `mi`. -/
noncomputable def nnLoop (nb : ℕ → List ℕ) (wt : ℕ → List ℝ) :
    List MatrixRow → List ℕ → List MatrixRow
  | rows, [] => rows
  | rows, mi :: ms =>
      let vals := (nb mi).map fun j => (rows.getD j defaultRow).travel_time_minutes
      nnLoop nb wt
        (rows.set mi { rows.getD mi defaultRow with
          travel_time_minutes := npAverage vals (wt mi) }) ms

/-- The feature rows of the known entries
(`features[known_mask]`, the data the `NearestNeighbors` model is fit on). -/
noncomputable def knownFeats (matrix : List MatrixRow) : List (List ℝ) :=
  (knownIdx matrix).map fun i => (create_zip_features matrix).getD i []

/-- The k-nearest-neighbor positions (`indices[i]` of `kneighbors`) for the
matrix row at position `i`, with `n_neighbors = min(k, len(known))`. -/
noncomputable def nnNeighborsOf (matrix : List MatrixRow) (k i : ℕ) : List ℕ :=
  kNearestIdx (knownFeats matrix) ((create_zip_features matrix).getD i [])
    (min k (knownIdx matrix).length)

/-- The inverse-distance weights `1 / (distances[i] + 1e-6)` paired with the
neighbor positions of row `i`. -/
noncomputable def nnWeightsOf (matrix : List MatrixRow) (k i : ℕ) : List ℝ :=
  (nnNeighborsOf matrix k i).map fun j =>
    1 / (euclid ((knownFeats matrix).getD j [])
      ((create_zip_features matrix).getD i []) + 1e-6)

/-- Embeds `InterpolationMethods.nearest_neighbor_interpolation` (lines 38-92).
Returns `.error` for the `sklearn` `ValueError` raised when fitting
`NearestNeighbors(n_neighbors = 0)` on an empty known set. -/
noncomputable def nearest_neighbor_interpolation (matrix : List MatrixRow)
    (k : ℕ) : Except String (List MatrixRow) :=
  let missing := missingIdx matrix
  if missing.isEmpty then .ok matrix
  else if (knownIdx matrix).isEmpty then .error "ValueError: n_neighbors == 0"
  else .ok (nnLoop (nnNeighborsOf matrix k) (nnWeightsOf matrix k) matrix missing)

/-- Embeds `InterpolationMethods._create_zip_coordinates`: centroid of the rough
per-ZIP coordinates derived from digit groups
(`lat = zip[:2] + zip[2:4]/100`, `lon = -120 + zip[4:]/10`). -/
def create_zip_coordinates (r : MatrixRow) : ℚ × ℚ :=
  let origin_lat : ℚ := (digitsVal (r.origin_zip.take 2) : ℚ) +
    (digitsVal ((r.origin_zip.drop 2).take 2) : ℚ) / 100
  let origin_lon : ℚ := -120 + (digitsVal (r.origin_zip.drop 4) : ℚ) / 10
  let dest_lat : ℚ := (digitsVal (r.destination_zip.take 2) : ℚ) +
    (digitsVal ((r.destination_zip.drop 2).take 2) : ℚ) / 100
  let dest_lon : ℚ := -120 + (digitsVal (r.destination_zip.drop 4) : ℚ) / 10
  ((origin_lat + dest_lat) / 2, (origin_lon + dest_lon) / 2)

/-- Planar distance in approximate miles between two rows centroid
coordinates (`sqrt(dlat^2 + dlon^2) * 69`). -/
noncomputable def coordDistance (a b : ℚ × ℚ) : ℝ :=
  Real.sqrt (((a.1 : ℝ) - (b.1 : ℝ)) ^ 2 + ((a.2 : ℝ) - (b.2 : ℝ)) ^ 2) * 69

/-- First-position `argmin` over a list of distances (`Series.argmin`). -/
noncomputable def argminPos (ds : List ℝ) : ℕ :=
  (((List.range ds.length).mergeSort fun i j =>
    decide (ds.getD i 0 ≤ ds.getD j 0)).headD 0)

/-- Fill value for one missing row in `spatial_weighting_interpolation`
(lines 130-153): inverse-distance-weighted average of the known values
within `max_distance`, falling back to the nearest known value. -/
noncomputable def spatialValue (knownCoords : List (ℚ × ℚ)) (knownVals : List ℝ)
    (max_distance : ℝ) (c : ℚ × ℚ) : ℝ :=
  let distances := knownCoords.map fun kc => coordDistance kc c
  let paired := distances.zip knownVals
  let within := paired.filter fun p => decide (p.1 ≤ max_distance)
  if within.length ≠ 0 then
    ((within.map fun p => (1 / (p.1 + 1e-6)) * p.2).sum) /
      ((within.map fun p => 1 / (p.1 + 1e-6)).sum)
  else
    knownVals.getD (argminPos distances) 0

/-- Embeds `InterpolationMethods.spatial_weighting_interpolation` (lines 94-156).
The known values are captured before the fill loop, so the loop is a
per-row map over the missing rows; `argmin` on an empty distance list is
the `sklearn`/`numpy` `ValueError`. -/
noncomputable def spatial_weighting_interpolation (matrix : List MatrixRow)
    (max_distance : ℝ) : Except String (List MatrixRow) :=
  let missing := missingIdx matrix
  if missing.isEmpty then .ok matrix
  else
    let known := knownIdx matrix
    if known.isEmpty then .error "ValueError: attempt to get argmin of an empty sequence"
    else
      let knownCoords := known.map fun i =>
        create_zip_coordinates (matrix.getD i defaultRow)
      let knownVals := known.map fun i =>
        ((matrix.getD i defaultRow).travel_time_minutes).getD 0
      .ok (mapIdxFrom (fun _ row =>
        if row.travel_time_minutes.isNone then
          { row with travel_time_minutes := some (spatialValue knownCoords
              knownVals max_distance (create_zip_coordinates row)) }
        else row) 0 matrix)

/-- Known-subset positions assigned to cluster `c` by the
`AgglomerativeClustering.fit_predict` labelling `labels` (the labelling is
produced by the external sklearn library and is passed in explicitly). -/
def clusterPositions (matrix : List MatrixRow) (labels : ℕ → ℕ) (c : ℕ) : List ℕ :=
  (List.range (knownIdx matrix).length).filter fun p => labels p = c

/-- The known travel times of cluster `c`
(`known_values[cluster_mask]`). -/
def clusterTravelTimes (matrix : List MatrixRow) (labels : ℕ → ℕ) (c : ℕ) : List ℝ :=
  (clusterPositions matrix labels c).map fun p =>
    ((matrix.getD ((knownIdx matrix).getD p 0) defaultRow).travel_time_minutes).getD 0

/-- Embeds `cluster_values[cluster_id]`: the mean travel time of cluster `c`; the
pandas mean of an empty selection is NaN (`none`).  (sklearn agglomerative
clustering never produces an empty cluster, so the `none` branch is
unreachable in a real run.) -/
noncomputable def clusterMeanTime (matrix : List MatrixRow) (labels : ℕ → ℕ)
    (c : ℕ) : Option ℝ :=
  if (clusterPositions matrix labels c).isEmpty then none
  else some (listMean (clusterTravelTimes matrix labels c))

/-- Embeds `cluster_centers[cluster_id]`: per-column mean of the cluster scaled
feature rows (the feature table has nine columns). -/
noncomputable def clusterCenter (matrix : List MatrixRow) (labels : ℕ → ℕ)
    (c : ℕ) : List ℝ :=
  let rows := (clusterPositions matrix labels c).map fun p =>
    (create_zip_features matrix).getD ((knownIdx matrix).getD p 0) []
  (List.range 9).map fun j => colMean rows j

/-- The nearest-cluster scan of lines 216-224: `min_distance` starts at
infinity (`acc = none`), and a cluster replaces the incumbent only when its
distance is strictly smaller; ties keep the earlier cluster. -/
noncomputable def nearestClusterGo (d : ℕ → ℝ) : List ℕ → Option (ℝ × ℕ) → ℕ
  | [], none => 0
  | [], some acc => acc.2
  | c :: rest, none => nearestClusterGo d rest (some (d c, c))
  | c :: rest, some acc =>
      nearestClusterGo d rest (some (if d c < acc.1 then (d c, c) else acc))

/-- Embeds `nearest_cluster` for one missing row: scan cluster ids `0, ..., n-1`. -/
noncomputable def nearestCluster (d : ℕ → ℝ) (n : ℕ) : ℕ :=
  nearestClusterGo d (List.range n) none

/-- Fill pass of the clustering strategy (lines 213-228): each missing row
is assigned the mean travel time of its nearest cluster. -/
noncomputable def hierarchicalFill (matrix : List MatrixRow) (labels : ℕ → ℕ)
    (nc : ℕ) : List MatrixRow :=
  let feats := create_zip_features matrix
  mapIdxFrom (fun i row =>
    if row.travel_time_minutes.isNone then
      let chosen := nearestCluster (fun c =>
        euclid (feats.getD i []) (clusterCenter matrix labels c)) nc
      { row with travel_time_minutes := clusterMeanTime matrix labels chosen }
    else row) 0 matrix

/-- Embeds `InterpolationMethods.hierarchical_clustering_interpolation`
(lines 158-231), with the sklearn clustering labelling passed in as
`labels`.  `n_clusters` is lowered to the known-row count; asking
`AgglomerativeClustering` for zero clusters raises. -/
noncomputable def hierarchical_clustering_interpolation (matrix : List MatrixRow)
    (labels : ℕ → ℕ) (n_clusters : ℕ) : Except String (List MatrixRow) :=
  let missing := missingIdx matrix
  if missing.isEmpty then .ok matrix
  else
    let known := knownIdx matrix
    let nc := min n_clusters known.length
    if nc = 0 then .error "ValueError: n_clusters should be an integer greater than 0"
    else .ok (hierarchicalFill matrix labels nc)

/-- Embeds `InterpolationMethods.machine_learning_interpolation` (lines 233-279),
with the fitted `RandomForestRegressor.predict` passed in as `predict`
(the forest itself is external sklearn code; the fill loop writes its
prediction of each missing row features).  Fitting on an empty known set
raises. -/
noncomputable def machine_learning_interpolation (matrix : List MatrixRow)
    (predict : List ℝ → ℝ) : Except String (List MatrixRow) :=
  let missing := missingIdx matrix
  if missing.isEmpty then .ok matrix
  else
    let known := knownIdx matrix
    if known.isEmpty then .error "ValueError: empty training set"
    else
      let feats := create_zip_features matrix
      .ok (mapIdxFrom (fun i row =>
        if row.travel_time_minutes.isNone then
          { row with travel_time_minutes := some (predict (feats.getD i [])) }
        else row) 0 matrix)

/-- A fully-known one-row matrix in the engine schema, used as a concrete
evaluation input. -/
def matrixAllKnown : List MatrixRow :=
  [{ origin_zip := ['9', '0', '0', '0', '1'],
     destination_zip := ['9', '0', '2', '1', '0'],
     travel_time_minutes := some 30 }]

/-- A three-row engine matrix whose first row is missing and whose known
rows sit at positions 1 and 2 — so the known-subset positions {0, 1}
returned by `kneighbors` do not coincide with the known rows {1, 2} of the
full matrix. -/
def matrixMisindexed : List MatrixRow :=
  [{ origin_zip := ['9', '0', '0', '0', '1'],
     destination_zip := ['9', '4', '1', '0', '2'],
     travel_time_minutes := none },
   { origin_zip := ['9', '0', '2', '1', '0'],
     destination_zip := ['9', '4', '1', '0', '3'],
     travel_time_minutes := some 30 },
   { origin_zip := ['9', '5', '0', '0', '1'],
     destination_zip := ['9', '0', '0', '0', '1'],
     travel_time_minutes := some 60 }]

/-- A two-row engine matrix with one missing and one known entry, used as a
concrete evaluation input for the clustering strategy. -/
def matrixOneGap : List MatrixRow :=
  [{ origin_zip := ['9', '0', '0', '0', '1'],
     destination_zip := ['9', '4', '1', '0', '2'],
     travel_time_minutes := none },
   { origin_zip := ['9', '0', '2', '1', '0'],
     destination_zip := ['9', '4', '1', '0', '3'],
     travel_time_minutes := some 30 }]

/-! ### Column-level schema (for the builder-to-engine hand-off) -/

/-- A pandas cell: a string, a float, or NaN. -/
inductive Cell : Type where
  | str (s : List Char)
  | num (x : ℝ)
  | nan

/-- A pandas DataFrame: named columns over positional rows. -/
structure DataFrame where
  cols : List String
  data : List (List Cell)

/-- Whether a cell is `isna`. -/
def Cell.isNa : Cell → Bool
  | .nan => true
  | _ => false

/-- Column access `df[c]`: a missing column raises `KeyError`. -/
def getColumn (df : DataFrame) (c : String) : Except String (List Cell) :=
  match df.cols.indexOf? c with
  | none => .error ("KeyError: " ++ c)
  | some i => .ok (df.data.map fun r => r.getD i Cell.nan)

/-- A builder target-matrix row as a DataFrame row
(`zip_code`, `provider_npi`, `drive_minutes`). -/
def targetRowCells (r : TargetRow) : List Cell :=
  [Cell.str r.zip_code, Cell.num r.provider_npi,
    match r.drive_minutes with
    | some t => Cell.num (t : ℝ)
    | none => Cell.nan]

/-- A one-row builder target matrix whose single travel time is unset. -/
def targetRowUnset : TargetRow :=
  { zip_code := ['9', '0', '0', '0', '1'], provider_npi := 1,
    drive_minutes := none }

/-- The builder target matrix as the DataFrame handed to the engine. -/
def targetFrame (rows : List TargetRow) : DataFrame :=
  { cols := ["zip_code", "provider_npi", "drive_minutes"],
    data := rows.map targetRowCells }

/-- Convert engine-schema cells to typed rows (used once the engine
column accesses have succeeded). -/
def toMatrixRows (oz dz tt : List Cell) : List MatrixRow :=
  (oz.zip (dz.zip tt)).map fun p =>
    { origin_zip := match p.1 with | .str s => s | _ => []
      destination_zip := match p.2.1 with | .str s => s | _ => []
      travel_time_minutes := match p.2.2 with | .num x => some x | _ => none }

/-- Overwrite column `c` of `df` with `vals`, row by row. -/
def setColumn (df : DataFrame) (c : String) (vals : List Cell) : DataFrame :=
  match df.cols.indexOf? c with
  | none => df
  | some i => { df with data := (df.data.zip vals).map fun p => p.1.set i p.2 }

/-- Embeds `nearest_neighbor_interpolation` at the DataFrame level: the function
first reads `the travel_time_minutes column` (line 55), then the feature
construction reads `origin_zip` and `destination_zip` (lines 295-302); a
matrix lacking any of these columns raises `KeyError`. -/
noncomputable def nearest_neighbor_interpolation_df (df : DataFrame) (k : ℕ) :
    Except String DataFrame :=
  match getColumn df "travel_time_minutes" with
  | .error e => .error e
  | .ok tt =>
    if (tt.countP Cell.isNa) = 0 then .ok df
    else
      match getColumn df "origin_zip" with
      | .error e => .error e
      | .ok oz =>
        match getColumn df "destination_zip" with
        | .error e => .error e
        | .ok dz =>
          match nearest_neighbor_interpolation (toMatrixRows oz dz tt) k with
          | .error e => .error e
          | .ok res => .ok (setColumn df "travel_time_minutes" (res.map fun r =>
              match r.travel_time_minutes with
              | some x => Cell.num x
              | none => Cell.nan))

/-- Embeds `TravelMatrixBuilder._interpolate_remaining_gaps` (lines 452-477): count
the NaN entries of `drive_minutes`; if any remain, hand the builder
target matrix to the engine nearest-neighbor strategy with the default
`k = 5`. -/
noncomputable def interpolate_remaining_gaps (target : DataFrame) :
    Except String DataFrame :=
  match getColumn target "drive_minutes" with
  | .error e => .error e
  | .ok dm =>
    if (dm.countP Cell.isNa) = 0 then .ok target
    else nearest_neighbor_interpolation_df target 5

/-! ### Helper lemmas about the list primitives -/

theorem mem_ddAux {α : Type} [DecidableEq α] (l : List α) :
    ∀ (seen : List α) (a : α), a ∈ ddAux l seen ↔ a ∈ l ∧ a ∉ seen := by
  induction l with
  | nil => intro seen a; simp [ddAux]
  | cons x xs ih =>
    intro seen a
    by_cases hx : x ∈ seen
    · rw [show ddAux (x :: xs) seen = ddAux xs seen by simp [ddAux, if_pos hx], ih]
      constructor
      · rintro ⟨ha, hs⟩; exact ⟨List.mem_cons_of_mem _ ha, hs⟩
      · rintro ⟨ha, hs⟩
        rcases List.mem_cons.mp ha with rfl | ha
        · exact absurd hx hs
        · exact ⟨ha, hs⟩
    · rw [show ddAux (x :: xs) seen = x :: ddAux xs (x :: seen) by
        simp [ddAux, if_neg hx]]
      constructor
      · intro hmem
        rcases List.mem_cons.mp hmem with rfl | hmem
        · exact ⟨List.mem_cons_self _ _, hx⟩
        · obtain ⟨ha, hs⟩ := (ih (x :: seen) a).mp hmem
          exact ⟨List.mem_cons_of_mem _ ha,
            fun hseen => hs (List.mem_cons_of_mem _ hseen)⟩
      · rintro ⟨ha, hs⟩
        rcases List.mem_cons.mp ha with rfl | ha
        · exact List.mem_cons_self _ _
        · by_cases hax : a = x
          · exact hax ▸ List.mem_cons_self _ _
          · exact List.mem_cons_of_mem _ ((ih (x :: seen) a).mpr
              ⟨ha, fun hm => by
                rcases List.mem_cons.mp hm with h1 | h2
                · exact hax h1
                · exact hs h2⟩)
theorem mem_dropDuplicates {α : Type} [DecidableEq α] (l : List α) (a : α) :
    a ∈ dropDuplicates l ↔ a ∈ l := by
  simp [dropDuplicates, mem_ddAux]
theorem nodup_ddAux {α : Type} [DecidableEq α] (l : List α) :
    ∀ seen : List α, (ddAux l seen).Nodup := by
  induction l with
  | nil => intro seen; simp [ddAux]
  | cons x xs ih =>
    intro seen
    by_cases hx : x ∈ seen
    · simpa [ddAux, if_pos hx] using ih seen
    · rw [show ddAux (x :: xs) seen = x :: ddAux xs (x :: seen) by
        simp [ddAux, if_neg hx]]
      refine List.nodup_cons.mpr ⟨?_, ih (x :: seen)⟩
      intro hmem
      exact ((mem_ddAux xs (x :: seen) x).mp hmem).2 (List.mem_cons_self x seen)
theorem nodup_dropDuplicates {α : Type} [DecidableEq α] (l : List α) :
    (dropDuplicates l).Nodup :=
  nodup_ddAux l []
theorem length_mapIdxFrom {α : Type} (f : ℕ → α → α) :
    ∀ (i : ℕ) (l : List α), (mapIdxFrom f i l).length = l.length := by
  intro i l
  induction l generalizing i with
  | nil => rfl
  | cons x xs ih => simp [mapIdxFrom, ih]
theorem getD_mapIdxFrom {α : Type} (f : ℕ → α → α) (d : α) :
    ∀ (l : List α) (s i : ℕ), i < l.length →
      (mapIdxFrom f s l).getD i d = f (s + i) (l.getD i d) := by
  intro l
  induction l with
  | nil => intro s i h; simp at h
  | cons x xs ih =>
    intro s i h
    cases i with
    | zero => simp [mapIdxFrom]
    | succ j =>
      have hj : j < xs.length := by simpa using Nat.lt_of_succ_lt_succ h
      rw [show s + (j + 1) = (s + 1) + j by omega]
      simpa [mapIdxFrom] using ih (s + 1) j hj
theorem mem_idxWhere {α : Type} (l : List α) (d : α) (p : α → Bool) (i : ℕ) :
    i ∈ idxWhere l d p ↔ i < l.length ∧ p (l.getD i d) = true := by
  simp [idxWhere, List.mem_filter]

/-! ### Facts about the fallback estimation -/

theorem region_of_isCaZip (z : List Char) (h : isCaZip z = true) :
    ∃ r, parseDigits (z.take 2) = some r ∧ 90 ≤ r ∧ r ≤ 96 := by
  simp only [isCaZip, caZipStarts, List.any_eq_true] at h
  obtain ⟨p, hp, hpre⟩ := h
  rw [List.isPrefixOf_iff_prefix] at hpre
  obtain ⟨t, rfl⟩ := hpre
  simp only [List.mem_cons, List.not_mem_nil, or_false] at hp
  rcases hp with rfl | rfl | rfl | rfl | rfl | rfl | rfl
  · exact ⟨90, rfl, by norm_num, by norm_num⟩
  · exact ⟨91, rfl, by norm_num, by norm_num⟩
  · exact ⟨92, rfl, by norm_num, by norm_num⟩
  · exact ⟨93, rfl, by norm_num, by norm_num⟩
  · exact ⟨94, rfl, by norm_num, by norm_num⟩
  · exact ⟨95, rfl, by norm_num, by norm_num⟩
  · exact ⟨96, rfl, by norm_num, by norm_num⟩

/-- C8: for every pair of ZIP strings and every value of the random
variability, the fallback estimation returns 180 when neither ZIP has a
recognized in-region (90-96) prefix, a value in [120, 150] when exactly one
does, and a value in [10, 120] when both do. -/
theorem C8_fallback_travel_time_cases (o d : List Char) (eps : ℚ) :
    (isCaZip o = false ∧ isCaZip d = false →
      fallback_travel_time_estimation o d eps = 180) ∧
    (isCaZip o ≠ isCaZip d →
      120 ≤ fallback_travel_time_estimation o d eps ∧
      fallback_travel_time_estimation o d eps ≤ 150) ∧
    (isCaZip o = true ∧ isCaZip d = true →
      10 ≤ fallback_travel_time_estimation o d eps ∧
      fallback_travel_time_estimation o d eps ≤ 120) := by
  refine ⟨?_, ?_, ?_⟩
  · rintro ⟨ho, hd⟩
    simp [fallback_travel_time_estimation, ho, hd]
    norm_num
  · intro hne
    have h1 : ¬(¬(isCaZip o = true) ∧ ¬(isCaZip d = true)) := by
      rintro ⟨ho, hd⟩
      exact hne ((Bool.not_eq_true _).mp ho |>.trans ((Bool.not_eq_true _).mp hd).symm)
    simp only [fallback_travel_time_estimation]
    rw [if_neg h1, if_pos hne]
    norm_num
  · rintro ⟨ho, hd⟩
    obtain ⟨ro, hro, hro1, hro2⟩ := region_of_isCaZip o ho
    obtain ⟨rd, hrd, hrd1, hrd2⟩ := region_of_isCaZip d hd
    have h1 : ¬(¬(isCaZip o = true) ∧ ¬(isCaZip d = true)) := by
      rintro ⟨ho2, _⟩; exact ho2 ho
    have h2 : ¬(isCaZip o ≠ isCaZip d) := by
      rw [ho, hd]; simp
    simp only [fallback_travel_time_estimation]
    rw [if_neg h1, if_neg h2, hro, hrd]
    simp only []
    rw [if_pos ⟨hro1, hro2, hrd1, hrd2⟩]
    constructor
    · exact le_min (by norm_num) (le_max_left _ _)
    · exact min_le_left _ _

/-- Witness for C8 at concrete inputs: a same-region pair (both CA
prefixes), evaluated through the theorem. -/
theorem C8_fallback_travel_time_cases_witness :
    isCaZip ['9', '0', '0', '0', '1'] = true ∧
    isCaZip ['9', '5', '0', '0', '2'] = true ∧
    (10 ≤ fallback_travel_time_estimation ['9', '0', '0', '0', '1']
        ['9', '5', '0', '0', '2'] 0 ∧
      fallback_travel_time_estimation ['9', '0', '0', '0', '1']
        ['9', '5', '0', '0', '2'] 0 ≤ 120) :=
  ⟨by decide, by decide,
    (C8_fallback_travel_time_cases ['9', '0', '0', '0', '1']
      ['9', '5', '0', '0', '2'] 0).2.2 ⟨by decide, by decide⟩⟩

/-! ### C5: clamping of the speed-tier estimate -/

/-- C5: for every distance and every value of the random perturbation, the
estimate produced by the tier formula plus perturbation, after clamping,
lies in the closed interval [5, 600] minutes. -/
theorem C5_estimate_minutes_bounds (distance eps : ℚ) (_hd : 0 ≤ distance) :
    5 ≤ estimate_minutes distance eps ∧ estimate_minutes distance eps ≤ 600 := by
  unfold estimate_minutes
  exact ⟨le_min (by norm_num) (le_max_left _ _), min_le_left _ _⟩

/-- Witness for C5 at distance 100 with the perturbation disabled. -/
theorem C5_estimate_minutes_bounds_witness :
    (0 : ℚ) ≤ 100 ∧ (5 ≤ estimate_minutes 100 0 ∧ estimate_minutes 100 0 ≤ 600) :=
  ⟨by norm_num, C5_estimate_minutes_bounds 100 0 (by norm_num)⟩

/-! ### C3: coverage gate before persistence -/

/-- C3: for every build whose matrix coverage after all fill phases is below
the configured minimum, finalization returns the coverage error and writes
no output file — the file-system state is returned unchanged. -/
theorem C3_coverage_error_no_write (min_coverage : ℚ) (m : List (Option ℚ))
    (fs : List String) (h : coverage m < min_coverage) :
    build_finalize min_coverage m fs =
      (.error (.coverageError (coverage m) min_coverage), fs) := by
  unfold build_finalize validate_matrix
  rw [if_pos h]

/-- Witness for C3: a one-row matrix with an unset entry has coverage 0,
below the default minimum 0.95; no file is written. -/
theorem C3_coverage_error_no_write_witness :
    coverage [(none : Option ℚ)] < 95 / 100 ∧
    build_finalize (95 / 100) [(none : Option ℚ)] [] =
      (.error (.coverageError (coverage [(none : Option ℚ)]) (95 / 100)), []) :=
  ⟨by norm_num [coverage], C3_coverage_error_no_write (95 / 100) [none] []
    (by norm_num [coverage])⟩

/-! ### C9 and C2: properties of the distance functions -/

theorem sin_sq_sub_comm (u v : ℝ) :
    Real.sin ((u - v) / 2) ^ 2 = Real.sin ((v - u) / 2) ^ 2 := by
  rw [show (u - v) / 2 = -((v - u) / 2) by ring, Real.sin_neg]
  ring

/-- C9: the haversine distance of `_calculate_distance` is symmetric in its
two points, and is zero on identical points. -/
theorem C9_calculate_distance_symm_zero :
    (∀ a b : ℝ × ℝ, calculate_distance a b = calculate_distance b a) ∧
    (∀ a : ℝ × ℝ, calculate_distance a a = 0) := by
  constructor
  · intro a b
    simp only [calculate_distance]
    rw [sin_sq_sub_comm (radians b.1) (radians a.1),
      sin_sq_sub_comm (radians b.2) (radians a.2),
      mul_comm (Real.cos (radians a.1)) (Real.cos (radians b.1))]
  · intro a
    simp [calculate_distance]

/-- The builder haversine evaluated on the antipodal pair
(lat 0, lon 0) - (lat 0, lon 180): central angle pi, radius 3959, and
no inflation factor. -/
theorem calculate_distance_antipode :
    calculate_distance ((0 : ℝ), (0 : ℝ)) ((0 : ℝ), (180 : ℝ)) =
      3959 * Real.pi := by
  have h180 : radians 180 = Real.pi := by
    simp only [radians]; ring
  have h0 : radians 0 = 0 := by
    simp only [radians]; ring
  simp only [calculate_distance, h180, h0]
  rw [show (Real.pi - 0) / 2 = Real.pi / 2 by ring,
    show ((0 : ℝ) - 0) / 2 = 0 by ring]
  simp [Real.sin_pi_div_two]
  ring

/-- The spec-modelled great-circle distance on the same antipodal pair:
central angle pi (via `atan2 1 0 = pi / 2`). -/
theorem greatCircleDistance_antipode (R : ℝ) :
    greatCircleDistance R 0 0 0 180 = R * Real.pi := by
  have h180 : radians (180 - 0) = Real.pi := by
    simp only [radians]; ring
  have h0 : radians (0 - 0) = 0 := by
    simp only [radians]; ring
  have h0' : radians 0 = 0 := by
    simp only [radians]; ring
  simp only [greatCircleDistance, h180, h0, h0']
  rw [show (Real.pi / 2 : ℝ) = Real.pi / 2 by ring]
  have ha : Real.sin (0 / 2) ^ 2 + Real.cos 0 * Real.cos 0 *
      Real.sin (Real.pi / 2) ^ 2 = 1 := by
    simp [Real.sin_pi_div_two]
  rw [ha]
  have hatan : atan2 (Real.sqrt 1) (Real.sqrt (1 - 1)) = Real.pi / 2 := by
    rw [show (1 : ℝ) - 1 = 0 by ring, Real.sqrt_zero, Real.sqrt_one]
    unfold atan2
    rw [if_neg (by norm_num), if_neg (by norm_num), if_neg (by norm_num),
      if_pos ⟨rfl, by norm_num⟩]
  rw [hatan]
  ring

/-- C2 counterexample: at the concrete pair (0,0)-(0,180) the builder
`_calculate_distance` equals 3959 * pi, which differs from (and lies below)
the claimed haversine x 1.15 value for every radius in the claimed
3958.8-3959 band. -/
theorem C2_counterexample :
    calculate_distance ((0 : ℝ), (0 : ℝ)) ((0 : ℝ), (180 : ℝ)) ≠
      1.15 * greatCircleDistance 3959 0 0 0 180 ∧
    calculate_distance ((0 : ℝ), (0 : ℝ)) ((0 : ℝ), (180 : ℝ)) <
      1.15 * greatCircleDistance 3958.8 0 0 0 180 := by
  rw [calculate_distance_antipode, greatCircleDistance_antipode,
    greatCircleDistance_antipode]
  have hpi := Real.pi_pos
  constructor
  · intro h; nlinarith
  · nlinarith

/-- C2 amended: the 1.15 road-network inflation factor (with Earth radius
3958.8) is applied by the statewide generator `haversine`; the builder
`_calculate_distance` instead returns the plain great-circle distance with
radius 3959 and no inflation factor (shown at the antipodal pair). -/
theorem C2_amended_inflation_factor :
    (∀ lat1 lon1 lat2 lon2 : ℝ, haversine lat1 lon1 lat2 lon2 =
      1.15 * greatCircleDistance 3958.8 lat1 lon1 lat2 lon2) ∧
    calculate_distance ((0 : ℝ), (0 : ℝ)) ((0 : ℝ), (180 : ℝ)) =
      3959 * Real.pi := by
  constructor
  · intro lat1 lon1 lat2 lon2
    simp only [haversine, greatCircleDistance]
    ring
  · exact calculate_distance_antipode

/-! ### C1: shape of the materialized target matrix -/

theorem length_flatMap_const {β γ : Type} (l : List β) (f : β → List γ) (n : ℕ)
    (h : ∀ b ∈ l, (f b).length = n) : (l.flatMap f).length = l.length * n := by
  induction l with
  | nil => simp
  | cons b bs ih =>
    have hb := h b (List.mem_cons_self _ _)
    have ihs := ih fun x hx => h x (List.mem_cons_of_mem _ hx)
    simp only [List.flatMap_cons, List.length_append, hb, ihs, List.length_cons]
    ring

theorem length_eq_of_nodup_same_mem {α : Type} (l1 l2 : List α)
    (h1 : l1.Nodup) (h2 : l2.Nodup) (hm : ∀ a, a ∈ l1 ↔ a ∈ l2) :
    l1.length = l2.length :=
  le_antisymm
    ((h1.subperm fun a ha => (hm a).mp ha).length_le)
    ((h2.subperm fun a ha => (hm a).mpr ha).length_le)

/-- C1 counterexample: a roster in which provider 1 appears with two
different ZIP codes, against a single demand ZIP.  The materialized matrix
has a duplicated (demand_zip, provider_id) pair, and its row count differs
from |distinct providers| x |distinct demand ZIPs| = 1. -/
theorem C1_counterexample :
    ¬ (((create_target_matrix
          [⟨1, ['9', '0', '0', '0', '1']⟩, ⟨1, ['9', '4', '1', '0', '2']⟩]
          [⟨['9', '0', '0', '0', '1'], 1⟩]).map
        fun r => (r.zip_code, r.provider_npi)).Nodup) ∧
    (create_target_matrix
        [⟨1, ['9', '0', '0', '0', '1']⟩, ⟨1, ['9', '4', '1', '0', '2']⟩]
        [⟨['9', '0', '0', '0', '1'], 1⟩]).length ≠
      (dropDuplicates ([⟨1, ['9', '0', '0', '0', '1']⟩,
          ⟨1, ['9', '4', '1', '0', '2']⟩].map fun p : ProviderRow => p.npi)).length *
      (dropDuplicates ([⟨['9', '0', '0', '0', '1'], 1⟩].map
          fun d : DemandRow => d.zip_code)).length := by
  decide

/-- C1 amended: when every provider identifier carries a single 5-digit ZIP
prefix (the deduplicated (NPI, zip) pairs have pairwise-distinct NPIs), the
materialized matrix has exactly |distinct providers| x |distinct demand
ZIPs| rows and no duplicate (demand_zip, provider_id) pair.  (When an NPI
appears with several ZIP prefixes, the matrix instead contains one row per
(NPI, zip) combination, duplicating the pair — see the counterexample.) -/
theorem C1_target_matrix_shape (providers : List ProviderRow)
    (demand : List DemandRow)
    (h : ((dropDuplicates (providers.map fun p => (p.npi, p.zip_code.take 5))).map
      Prod.fst).Nodup) :
    (create_target_matrix providers demand).length =
      (dropDuplicates (providers.map fun p => p.npi)).length *
      (dropDuplicates (demand.map fun d => d.zip_code)).length ∧
    ((create_target_matrix providers demand).map
      fun r => (r.zip_code, r.provider_npi)).Nodup := by
  set PI := dropDuplicates (providers.map fun p => (p.npi, p.zip_code.take 5)) with hPI
  set DZ := dropDuplicates (demand.map fun d => d.zip_code) with hDZ
  have hmemfst : ∀ a, a ∈ PI.map Prod.fst ↔
      a ∈ dropDuplicates (providers.map fun p => p.npi) := by
    intro a
    rw [mem_dropDuplicates]
    constructor
    · intro ha
      obtain ⟨pr, hpr, rfl⟩ := List.mem_map.mp ha
      obtain ⟨p, hp, rfl⟩ := List.mem_map.mp ((mem_dropDuplicates _ _).mp hpr)
      exact List.mem_map.mpr ⟨p, hp, rfl⟩
    · intro ha
      obtain ⟨p, hp, rfl⟩ := List.mem_map.mp ha
      exact List.mem_map.mpr ⟨(p.npi, p.zip_code.take 5),
        (mem_dropDuplicates _ _).mpr (List.mem_map.mpr ⟨p, hp, rfl⟩), rfl⟩
  have hPIlen : PI.length = (dropDuplicates (providers.map fun p => p.npi)).length := by
    have := length_eq_of_nodup_same_mem (PI.map Prod.fst)
      (dropDuplicates (providers.map fun p => p.npi)) h
      (nodup_dropDuplicates _) hmemfst
    simpa using this
  constructor
  · rw [show (create_target_matrix providers demand).length = PI.length * DZ.length
      from length_flatMap_const PI _ DZ.length fun b _ => by simp]
    rw [hPIlen]
  · have hmap : (create_target_matrix providers demand).map
        (fun r => (r.zip_code, r.provider_npi)) =
        PI.flatMap fun pr => DZ.map fun dz => (dz, pr.1) := by
      unfold create_target_matrix
      rw [List.map_flatMap]
      simp only [List.map_map]
      rfl
    rw [hmap, List.nodup_flatMap]
    constructor
    · intro pr _
      exact (nodup_dropDuplicates _).map fun a b hab =>
        congrArg Prod.fst hab
    · have hpw : PI.Pairwise fun a b => a.1 ≠ b.1 := by
        have h' : (PI.map Prod.fst).Pairwise (· ≠ ·) := h
        rw [List.pairwise_map] at h'
        exact h'
      exact hpw.imp fun {a b} hab => by
        intro x hxa hxb
        obtain ⟨dz1, _, rfl⟩ := List.mem_map.mp hxa
        obtain ⟨dz2, _, heq⟩ := List.mem_map.mp hxb
        exact hab (by simpa using congrArg Prod.snd heq.symm)

/-- Witness for the amended C1 at a two-provider, two-demand-ZIP input with
distinct provider identifiers. -/
theorem C1_target_matrix_shape_witness :
    ((dropDuplicates ([⟨1, ['9', '0', '0', '0', '1']⟩,
        ⟨2, ['9', '4', '1', '0', '2']⟩].map
      fun p : ProviderRow => (p.npi, p.zip_code.take 5))).map Prod.fst).Nodup ∧
    ((create_target_matrix
        [⟨1, ['9', '0', '0', '0', '1']⟩, ⟨2, ['9', '4', '1', '0', '2']⟩]
        [⟨['9', '0', '0', '0', '1'], 1⟩, ⟨['9', '0', '2', '1', '0'], 2⟩]).length =
      (dropDuplicates ([⟨1, ['9', '0', '0', '0', '1']⟩,
          ⟨2, ['9', '4', '1', '0', '2']⟩].map fun p : ProviderRow => p.npi)).length *
      (dropDuplicates ([⟨['9', '0', '0', '0', '1'], 1⟩,
          ⟨['9', '0', '2', '1', '0'], 2⟩].map fun d : DemandRow => d.zip_code)).length ∧
    ((create_target_matrix
        [⟨1, ['9', '0', '0', '0', '1']⟩, ⟨2, ['9', '4', '1', '0', '2']⟩]
        [⟨['9', '0', '0', '0', '1'], 1⟩, ⟨['9', '0', '2', '1', '0'], 2⟩]).map
      fun r => (r.zip_code, r.provider_npi)).Nodup) :=
  ⟨by decide, C1_target_matrix_shape _ _ (by decide)⟩

/-! ### C6: the interpolation strategies never mutate known entries -/

theorem getD_mem_of_lt {α : Type} (l : List α) (d : α) (i : ℕ) (h : i < l.length) :
    l.getD i d ∈ l := by
  simp only [List.getD_eq_getElem?_getD, List.getElem?_eq_getElem h, Option.getD_some]
  exact List.getElem_mem h

theorem getD_set_ne {α : Type} (l : List α) (d a : α) {i j : ℕ} (h : i ≠ j) :
    (l.set i a).getD j d = l.getD j d := by
  simp [List.getD_eq_getElem?_getD, List.getElem?_set_ne h]

theorem missingIdx_eq_nil {m : List MatrixRow}
    (h : ∀ r ∈ m, r.travel_time_minutes.isSome = true) : missingIdx m = [] := by
  apply List.filter_eq_nil_iff.mpr
  intro i hi
  have hlt : i < m.length := List.mem_range.mp hi
  obtain ⟨v, hv⟩ := Option.isSome_iff_exists.mp (h _ (getD_mem_of_lt m defaultRow i hlt))
  simp only [List.getD_eq_getElem?_getD] at hv
  simp [hv]

theorem not_mem_missingIdx {m : List MatrixRow} {i : ℕ}
    (h : (m.getD i defaultRow).travel_time_minutes.isSome = true) :
    i ∉ missingIdx m := by
  intro hmem
  obtain ⟨-, hnone⟩ := (mem_idxWhere m defaultRow _ i).mp hmem
  obtain ⟨v, hv⟩ := Option.isSome_iff_exists.mp h
  rw [hv] at hnone
  simp at hnone

theorem nnLoop_getD_not_mem (nb : ℕ → List ℕ) (wt : ℕ → List ℝ) :
    ∀ (ms : List ℕ) (rows : List MatrixRow) (i : ℕ), i ∉ ms →
      (nnLoop nb wt rows ms).getD i defaultRow = rows.getD i defaultRow := by
  intro ms
  induction ms with
  | nil => intro rows i _; rfl
  | cons mi rest ih =>
    intro rows i hi
    have hne : mi ≠ i := fun he => hi (he ▸ List.mem_cons_self _ _)
    have hrest : i ∉ rest := fun hmem => hi (List.mem_cons_of_mem _ hmem)
    rw [nnLoop, ih _ i hrest, getD_set_ne _ _ _ hne]

theorem fillMap_getD_known (matrix : List MatrixRow)
    (g : ℕ → MatrixRow → MatrixRow) (i : ℕ) (hi : i < matrix.length)
    (hk : (matrix.getD i defaultRow).travel_time_minutes.isSome = true) :
    (mapIdxFrom (fun j row =>
        if row.travel_time_minutes.isNone then g j row else row) 0 matrix).getD i
      defaultRow = matrix.getD i defaultRow := by
  rw [getD_mapIdxFrom _ _ matrix 0 i hi, Nat.zero_add]
  obtain ⟨v, hv⟩ := Option.isSome_iff_exists.mp hk
  simp only [List.getD_eq_getElem?_getD] at hv
  simp [hv]

/-- C6: every interpolation strategy leaves every entry whose travel time
is already non-null unchanged, and each strategy applied to a matrix with
100% known entries returns it unchanged.  The sklearn clustering labelling
and the fitted random-forest predictor are universally quantified. -/
theorem C6_strategies_preserve_known (matrix : List MatrixRow) (k : ℕ)
    (max_distance : ℝ) (labels : ℕ → ℕ) (n_clusters : ℕ)
    (predict : List ℝ → ℝ) :
    ((∀ r ∈ matrix, r.travel_time_minutes.isSome = true) →
      nearest_neighbor_interpolation matrix k = .ok matrix ∧
      spatial_weighting_interpolation matrix max_distance = .ok matrix ∧
      hierarchical_clustering_interpolation matrix labels n_clusters = .ok matrix ∧
      machine_learning_interpolation matrix predict = .ok matrix) ∧
    (∀ m' i, i < matrix.length →
      (matrix.getD i defaultRow).travel_time_minutes.isSome = true →
      (nearest_neighbor_interpolation matrix k = .ok m' ∨
        spatial_weighting_interpolation matrix max_distance = .ok m' ∨
        hierarchical_clustering_interpolation matrix labels n_clusters = .ok m' ∨
        machine_learning_interpolation matrix predict = .ok m') →
      m'.getD i defaultRow = matrix.getD i defaultRow) := by
  constructor
  · intro hall
    have hmiss : missingIdx matrix = [] := missingIdx_eq_nil hall
    refine ⟨?_, ?_, ?_, ?_⟩
    · simp [nearest_neighbor_interpolation, hmiss]
    · simp [spatial_weighting_interpolation, hmiss]
    · simp [hierarchical_clustering_interpolation, hmiss]
    · simp [machine_learning_interpolation, hmiss]
  · intro m' i hi hk hocc
    by_cases hmiss : (missingIdx matrix).isEmpty
    · rcases hocc with hok | hok | hok | hok <;>
        · simp only [nearest_neighbor_interpolation,
            spatial_weighting_interpolation,
            hierarchical_clustering_interpolation,
            machine_learning_interpolation, hmiss, if_pos, if_true,
            Except.ok.injEq] at hok
          rw [← hok]
    · have hmiss' : (missingIdx matrix).isEmpty = false :=
        Bool.not_eq_true _ |>.mp hmiss
      rcases hocc with hok | hok | hok | hok
      · by_cases hknown : (knownIdx matrix).isEmpty
        · simp [nearest_neighbor_interpolation, hmiss', hknown] at hok
        · have hknown' : (knownIdx matrix).isEmpty = false :=
            Bool.not_eq_true _ |>.mp hknown
          simp only [nearest_neighbor_interpolation, hmiss', hknown',
            Bool.false_eq_true, if_false, Except.ok.injEq] at hok
          rw [← hok, nnLoop_getD_not_mem _ _ _ _ i (not_mem_missingIdx hk)]
      · by_cases hknown : (knownIdx matrix).isEmpty
        · simp [spatial_weighting_interpolation, hmiss', hknown] at hok
        · have hknown' : (knownIdx matrix).isEmpty = false :=
            Bool.not_eq_true _ |>.mp hknown
          simp only [spatial_weighting_interpolation, hmiss', hknown',
            Bool.false_eq_true, if_false, Except.ok.injEq] at hok
          rw [← hok, fillMap_getD_known matrix _ i hi hk]
      · by_cases hnc : min n_clusters (knownIdx matrix).length = 0
        · simp [hierarchical_clustering_interpolation, hmiss', hnc] at hok
        · simp only [hierarchical_clustering_interpolation, hmiss',
            Bool.false_eq_true, if_false, if_neg hnc, Except.ok.injEq] at hok
          rw [← hok]
          unfold hierarchicalFill
          exact fillMap_getD_known matrix _ i hi hk
      · by_cases hknown : (knownIdx matrix).isEmpty
        · simp [machine_learning_interpolation, hmiss', hknown] at hok
        · have hknown' : (knownIdx matrix).isEmpty = false :=
            Bool.not_eq_true _ |>.mp hknown
          simp only [machine_learning_interpolation, hmiss', hknown',
            Bool.false_eq_true, if_false, Except.ok.injEq] at hok
          rw [← hok, fillMap_getD_known matrix _ i hi hk]

/-- Witness for C6 on a fully-known one-row matrix: all four strategies
return it unchanged, and the known row survives every strategy. -/
theorem C6_strategies_preserve_known_witness :
    (∀ r ∈ matrixAllKnown, r.travel_time_minutes.isSome = true) ∧
    (nearest_neighbor_interpolation matrixAllKnown 5 = .ok matrixAllKnown ∧
      spatial_weighting_interpolation matrixAllKnown 100 = .ok matrixAllKnown ∧
      hierarchical_clustering_interpolation matrixAllKnown (fun _ => 0) 10 =
        .ok matrixAllKnown ∧
      machine_learning_interpolation matrixAllKnown (fun _ => 0) =
        .ok matrixAllKnown) ∧
    matrixAllKnown.getD 0 defaultRow = matrixAllKnown.getD 0 defaultRow := by
  have H := C6_strategies_preserve_known matrixAllKnown 5 100 (fun _ => 0) 10
    (fun _ => 0)
  have hall : ∀ r ∈ matrixAllKnown, r.travel_time_minutes.isSome = true := by
    intro r hr
    rcases List.mem_cons.mp hr with rfl | hr
    · rfl
    · simp at hr
  refine ⟨hall, H.1 hall, ?_⟩
  exact H.2 matrixAllKnown 0 (by norm_num [matrixAllKnown]) rfl
    (Or.inl (H.1 hall).1)

/-! ### C7: the neighbor lookup is misindexed -/

theorem mem_kNearestIdx_all (kf : List (List ℝ)) (q : List ℝ) (i : ℕ)
    (h : i < kf.length) : i ∈ kNearestIdx kf q kf.length := by
  unfold kNearestIdx
  rw [List.take_of_length_le (by rw [List.length_mergeSort, List.length_range])]
  exact List.mem_mergeSort.mpr (List.mem_range.mpr h)

theorem nearest_neighbor_eq_of_nonempty (matrix : List MatrixRow) (k : ℕ)
    (h1 : (missingIdx matrix).isEmpty = false)
    (h2 : (knownIdx matrix).isEmpty = false) :
    nearest_neighbor_interpolation matrix k =
      .ok (nnLoop (nnNeighborsOf matrix k) (nnWeightsOf matrix k) matrix
        (missingIdx matrix)) := by
  simp [nearest_neighbor_interpolation, h1, h2]

/-- C7: evaluating the nearest-neighbor strategy on `matrixMisindexed`
(one missing row at position 0, known rows at positions 1 and 2) returns
the matrix unchanged: the fill loop looks the neighbor values up with
`known_mask.index[indices[i]]`, applying the known-subset positions {0, 1}
to the full matrix, so it averages rows 0 and 1 — including the missing
row itself, whose NaN propagates through `np.average` — instead of the
known rows selected by the k-nearest-neighbor index. -/
theorem C7_neighbor_misindexing :
    nearest_neighbor_interpolation matrixMisindexed 5 = .ok matrixMisindexed ∧
    (matrixMisindexed.getD 0 defaultRow).travel_time_minutes = none := by
  refine ⟨?_, rfl⟩
  have hmiss : missingIdx matrixMisindexed = [0] := by rfl
  have hkflen : (knownFeats matrixMisindexed).length = 2 := by
    rw [knownFeats]
    rfl
  have hmin : min 5 (knownIdx matrixMisindexed).length = 2 := by rfl
  have h0mem : (0 : ℕ) ∈ nnNeighborsOf matrixMisindexed 5 0 := by
    rw [nnNeighborsOf, hmin, ← hkflen]
    exact mem_kNearestIdx_all _ _ 0 (by rw [hkflen]; norm_num)
  have hnone : (none : Option ℝ) ∈ (nnNeighborsOf matrixMisindexed 5 0).map
      fun j => (matrixMisindexed.getD j defaultRow).travel_time_minutes :=
    List.mem_map.mpr ⟨0, h0mem, rfl⟩
  have havg : npAverage ((nnNeighborsOf matrixMisindexed 5 0).map
      fun j => (matrixMisindexed.getD j defaultRow).travel_time_minutes)
      (nnWeightsOf matrixMisindexed 5 0) = none := by
    unfold npAverage
    rw [if_pos (List.any_eq_true.mpr ⟨none, hnone, rfl⟩)]
  rw [nearest_neighbor_eq_of_nonempty matrixMisindexed 5 (by rw [hmiss]; rfl)
    (by rfl), hmiss]
  have hstep : nnLoop (nnNeighborsOf matrixMisindexed 5)
      (nnWeightsOf matrixMisindexed 5) matrixMisindexed [0] = matrixMisindexed := by
    rw [nnLoop, havg, nnLoop]
    rfl
  rw [hstep]

/-! ### C4: the builder matrix is not a valid engine input -/

/-- C4: for every builder target matrix (columns `zip_code`,
`provider_npi`, `drive_minutes`) that still has NaN `drive_minutes`
entries, phase 5 hands it to the nearest-neighbor strategy, which
immediately raises `KeyError` on the absent `travel_time_minutes` column
instead of filling the entries: the builder matrix is not a valid input to
the engine. -/
theorem C4_engine_schema_mismatch (df : DataFrame) (dm : List Cell)
    (hcols : df.cols = ["zip_code", "provider_npi", "drive_minutes"])
    (hdm : getColumn df "drive_minutes" = .ok dm)
    (hmiss : dm.countP Cell.isNa ≠ 0) :
    interpolate_remaining_gaps df = .error "KeyError: travel_time_minutes" := by
  have hkey : getColumn df "travel_time_minutes" =
      .error "KeyError: travel_time_minutes" := by
    rw [getColumn, hcols]
    rfl
  unfold interpolate_remaining_gaps
  rw [hdm]
  simp only []
  rw [if_neg hmiss]
  unfold nearest_neighbor_interpolation_df
  rw [hkey]

/-- Witness for C4: a one-row builder matrix with an unset travel time. -/
theorem C4_engine_schema_mismatch_witness :
    (targetFrame [targetRowUnset]).cols =
      ["zip_code", "provider_npi", "drive_minutes"] ∧
    getColumn (targetFrame [targetRowUnset]) "drive_minutes" = .ok [Cell.nan] ∧
    [Cell.nan].countP Cell.isNa ≠ 0 ∧
    interpolate_remaining_gaps (targetFrame [targetRowUnset]) =
      .error "KeyError: travel_time_minutes" :=
  ⟨rfl, rfl, by decide,
    C4_engine_schema_mismatch _ [Cell.nan] rfl rfl (by decide)⟩

/-! ### C10: clustering interpolation never extrapolates -/

theorem nearestClusterGo_mem (d : ℕ → ℝ) :
    ∀ (ids : List ℕ) (acc : Option (ℝ × ℕ)),
      nearestClusterGo d ids acc = 0 ∨ nearestClusterGo d ids acc ∈ ids ∨
        ∃ a, acc = some a ∧ nearestClusterGo d ids acc = a.2 := by
  intro ids
  induction ids with
  | nil =>
    intro acc
    cases acc with
    | none => exact Or.inl rfl
    | some a => exact Or.inr (Or.inr ⟨a, rfl, rfl⟩)
  | cons c rest ih =>
    intro acc
    cases acc with
    | none =>
      have hstep : nearestClusterGo d (c :: rest) none =
          nearestClusterGo d rest (some (d c, c)) := rfl
      rcases ih (some (d c, c)) with h | h | ⟨a, ha, h⟩
      · exact Or.inl (hstep.trans h)
      · exact Or.inr (Or.inl (List.mem_cons_of_mem _ (hstep ▸ h)))
      · have : a = (d c, c) := by injection ha.symm
        subst this
        exact Or.inr (Or.inl (hstep ▸ h ▸ List.mem_cons_self _ _))
    | some acc =>
      have hstep : nearestClusterGo d (c :: rest) (some acc) =
          nearestClusterGo d rest
            (some (if d c < acc.1 then (d c, c) else acc)) := rfl
      rcases ih (some (if d c < acc.1 then (d c, c) else acc)) with h | h | ⟨a, ha, h⟩
      · exact Or.inl (hstep.trans h)
      · exact Or.inr (Or.inl (List.mem_cons_of_mem _ (hstep ▸ h)))
      · have ha' : a = if d c < acc.1 then (d c, c) else acc := by injection ha.symm
        by_cases hd : d c < acc.1
        · rw [if_pos hd] at ha'
          subst ha'
          exact Or.inr (Or.inl (hstep ▸ h ▸ List.mem_cons_self _ _))
        · rw [if_neg hd] at ha'
          exact Or.inr (Or.inr ⟨acc, rfl, by rw [hstep, h, ha']⟩)

theorem nearestCluster_lt (d : ℕ → ℝ) (n : ℕ) (h : 0 < n) :
    nearestCluster d n < n := by
  rcases nearestClusterGo_mem d (List.range n) none with h0 | hmem | ⟨a, ha, _⟩
  · rw [nearestCluster, h0]; exact h
  · exact List.mem_range.mp hmem
  · exact absurd ha (by simp)

theorem hierarchical_eq_of_nonempty (matrix : List MatrixRow) (labels : ℕ → ℕ)
    (n_clusters : ℕ) (h1 : (missingIdx matrix).isEmpty = false)
    (h2 : min n_clusters (knownIdx matrix).length ≠ 0) :
    hierarchical_clustering_interpolation matrix labels n_clusters =
      .ok (hierarchicalFill matrix labels
        (min n_clusters (knownIdx matrix).length)) := by
  simp [hierarchical_clustering_interpolation, h1, h2]

theorem listMean_bounds (l : List ℝ) (hne : l ≠ []) (lo hi : ℝ)
    (h : ∀ x ∈ l, lo ≤ x ∧ x ≤ hi) :
    lo ≤ listMean l ∧ listMean l ≤ hi := by
  have hlen : 0 < (l.length : ℝ) :=
    Nat.cast_pos.mpr (List.length_pos.mpr hne)
  have hlo := List.card_nsmul_le_sum (l := l) (n := lo) fun x hx => (h x hx).1
  have hhi := List.sum_le_card_nsmul l hi fun x hx => (h x hx).2
  rw [nsmul_eq_mul] at hlo hhi
  constructor
  · rw [listMean, le_div_iff₀ hlen]
    linarith
  · rw [listMean, div_le_iff₀ hlen]
    linarith

/-- C10: for every input matrix with at least one known entry, every value
written by the hierarchical-clustering strategy is the mean travel time of
some cluster of known entries, and therefore lies within every interval
containing all the known travel times.  `labels` is the sklearn clustering
labelling; as produced by agglomerative clustering it hits every cluster id
(hypothesis `hsurj`). -/
theorem C10_clustering_never_extrapolates (matrix : List MatrixRow)
    (labels : ℕ → ℕ) (n_clusters : ℕ) (m' : List MatrixRow)
    (hok : hierarchical_clustering_interpolation matrix labels n_clusters = .ok m')
    (hsurj : ∀ c < min n_clusters (knownIdx matrix).length,
      ∃ p < (knownIdx matrix).length, labels p = c) :
    ∀ i < matrix.length,
      (matrix.getD i defaultRow).travel_time_minutes = none →
      ∃ c < min n_clusters (knownIdx matrix).length,
        (m'.getD i defaultRow).travel_time_minutes =
          some (listMean (clusterTravelTimes matrix labels c)) ∧
        ∀ lo hi : ℝ,
          (∀ j < matrix.length, ∀ v : ℝ,
            (matrix.getD j defaultRow).travel_time_minutes = some v →
            lo ≤ v ∧ v ≤ hi) →
          lo ≤ listMean (clusterTravelTimes matrix labels c) ∧
            listMean (clusterTravelTimes matrix labels c) ≤ hi := by
  intro i hi hnone
  have hmem_miss : i ∈ missingIdx matrix :=
    (mem_idxWhere matrix defaultRow _ i).mpr ⟨hi, by rw [hnone]; rfl⟩
  by_cases hme : (missingIdx matrix).isEmpty
  · rw [List.isEmpty_iff] at hme
    rw [hme] at hmem_miss
    simp at hmem_miss
  · have hme' : (missingIdx matrix).isEmpty = false := Bool.not_eq_true _ |>.mp hme
    by_cases hnc : min n_clusters (knownIdx matrix).length = 0
    · simp [hierarchical_clustering_interpolation, hme', hnc] at hok
    · rw [hierarchical_eq_of_nonempty matrix labels n_clusters hme' hnc] at hok
      have hm' : m' = hierarchicalFill matrix labels
          (min n_clusters (knownIdx matrix).length) := by
        injection hok.symm
      subst hm'
      set nc := min n_clusters (knownIdx matrix).length with hncdef
      have hfill : (hierarchicalFill matrix labels nc).getD i defaultRow =
          (fun i row =>
            if row.travel_time_minutes.isNone then
              let chosen := nearestCluster (fun c =>
                euclid ((create_zip_features matrix).getD i [])
                  (clusterCenter matrix labels c)) nc
              { row with travel_time_minutes :=
                  clusterMeanTime matrix labels chosen }
            else row) i (matrix.getD i defaultRow) := by
        rw [hierarchicalFill]
        rw [getD_mapIdxFrom _ _ matrix 0 i hi, Nat.zero_add]
      set chosen := nearestCluster (fun c =>
        euclid ((create_zip_features matrix).getD i [])
          (clusterCenter matrix labels c)) nc with hchosen
      have hlt : chosen < nc :=
        nearestCluster_lt _ _ (Nat.pos_of_ne_zero hnc)
      obtain ⟨p, hp, hlabel⟩ := hsurj chosen hlt
      have hpos : p ∈ clusterPositions matrix labels chosen :=
        List.mem_filter.mpr ⟨List.mem_range.mpr hp, by simp [hlabel]⟩
      have hne : ¬(clusterPositions matrix labels chosen).isEmpty := by
        rw [List.isEmpty_iff]
        intro hemp
        rw [hemp] at hpos
        simp at hpos
      have hmean : clusterMeanTime matrix labels chosen =
          some (listMean (clusterTravelTimes matrix labels chosen)) := by
        rw [clusterMeanTime, if_neg hne]
      refine ⟨chosen, hlt, ?_, ?_⟩
      · rw [hfill]
        have hisnone : (matrix.getD i defaultRow).travel_time_minutes.isNone = true := by
          rw [hnone]; rfl
        simp only [hisnone, if_true, hmean]
      · intro lo hi2 hbr
        apply listMean_bounds
        · intro hemp
          have : (clusterTravelTimes matrix labels chosen) = [] := hemp
          rw [clusterTravelTimes] at this
          rw [List.map_eq_nil_iff] at this
          rw [this] at hpos
          simp at hpos
        · intro x hx
          rw [clusterTravelTimes] at hx
          obtain ⟨q, hq, rfl⟩ := List.mem_map.mp hx
          have hqlt : q < (knownIdx matrix).length :=
            List.mem_range.mp (List.mem_filter.mp hq).1
          have hjmem : (knownIdx matrix).getD q 0 ∈ knownIdx matrix :=
            getD_mem_of_lt _ _ q hqlt
          obtain ⟨hjlt, hjsome⟩ := (mem_idxWhere matrix defaultRow _ _).mp hjmem
          obtain ⟨v, hv⟩ := Option.isSome_iff_exists.mp hjsome
          rw [hv]
          simp only [Option.getD_some]
          exact hbr _ hjlt v hv

/-- Witness for C10 on a two-row matrix with one gap and one known entry,
with the single-cluster labelling. -/
theorem C10_clustering_never_extrapolates_witness :
    (∀ c < min 10 (knownIdx matrixOneGap).length,
      ∃ p < (knownIdx matrixOneGap).length, (fun _ : ℕ => 0) p = c) ∧
    (0 : ℕ) < matrixOneGap.length ∧
    (matrixOneGap.getD 0 defaultRow).travel_time_minutes = none ∧
    (∃ c < min 10 (knownIdx matrixOneGap).length,
      ((hierarchicalFill matrixOneGap (fun _ => 0)
          (min 10 (knownIdx matrixOneGap).length)).getD 0
          defaultRow).travel_time_minutes =
        some (listMean (clusterTravelTimes matrixOneGap (fun _ => 0) c)) ∧
      ∀ lo hi : ℝ,
        (∀ j < matrixOneGap.length, ∀ v : ℝ,
          (matrixOneGap.getD j defaultRow).travel_time_minutes = some v →
          lo ≤ v ∧ v ≤ hi) →
        lo ≤ listMean (clusterTravelTimes matrixOneGap (fun _ => 0) c) ∧
          listMean (clusterTravelTimes matrixOneGap (fun _ => 0) c) ≤ hi) :=
  ⟨by decide, by decide, rfl,
    C10_clustering_never_extrapolates matrixOneGap (fun _ => 0) 10 _
      (hierarchical_eq_of_nonempty _ _ _ rfl (by decide)) (by decide)
      0 (by decide) rfl⟩

end TravelMatrix
